import Mathlib

/-!
Shallow embedding of the client-side filter / graph subsystem of the
data-deals catalog browser (source: `src/app/page.tsx`,
`src/components/NetworkGraph.tsx`, `src/components/Filters.tsx`),
together with theorems settling the specification claims about it.

JavaScript numbers are modelled as rationals (`ℚ`), nullable numbers as
`Option ℚ`, JS strings as Lean `String`, JS `Set`/`Map` as lists that
preserve insertion order.  JS truthiness of numbers (`x || y` yields `y`
when `x` is `0`, `null`/`undefined` or `NaN`) is modelled explicitly.
-/

/-- JS `a || b` for a nullable number `a`: `null` and `0` are falsy. -/
def jsNumOr (a : Option ℚ) (b : ℚ) : ℚ :=
  match a with
  | none => b
  | some x => if x = 0 then b else x

/-- One deal record, per the `Deal` interface in `src/app/page.tsx`. -/
structure Deal where
  id : ℤ
  data_receiver : String
  data_aggregator : String
  date : ℤ
  type : String
  value_raw : String
  value_min : Option ℚ
  value_max : Option ℚ
  value_unit : Option String
  codes : List String
  source_url : Option String
deriving DecidableEq

/-- The filter state owned by the page component (`filters` in
`src/app/page.tsx`). -/
structure Filters where
  yearMin : ℤ
  yearMax : ℤ
  valueMin : ℚ
  valueMax : ℚ
  types : List String
  codes : List String
deriving DecidableEq

/-- The value sub-predicate of `applyFilters` (`src/app/page.tsx` lines
112–126), translated clause for clause:  undisclosed deals (both bounds
`null`) pass iff `filters.valueMin < 0`; otherwise the bounds are
converted to millions with JS-falsy defaulting (`value_min || 0`,
`value_max || dealMin` — note that the fallback `dealMin` is *already*
in millions and is divided by 1,000,000 again, exactly as the source
does) and the three-way closed-interval overlap test is applied. -/
def valuePred (f : Filters) (d : Deal) : Bool :=
  match d.value_min, d.value_max with
  | none, none => decide (f.valueMin < 0)
  | _, _ =>
    let dealMin := jsNumOr d.value_min 0 / 1000000
    let dealMax := jsNumOr d.value_max dealMin / 1000000
    let filterMin := if f.valueMin < 0 then 0 else f.valueMin
    decide ((filterMin ≤ dealMin ∧ dealMin ≤ f.valueMax) ∨
            (filterMin ≤ dealMax ∧ dealMax ≤ f.valueMax) ∨
            (dealMin ≤ filterMin ∧ f.valueMax ≤ dealMax))

/-- The value sub-predicate as the specification states it (spec §4.1,
item 3): `dealMin = value_min/1,000,000` (`0` if null), `dealMax =
value_max/1,000,000` (`dealMin` if null), `filterMin =
max(valueMin, 0)`, three-way overlap test.  This definition follows the
spec's words; `valuePred` above follows the source. -/
def valuePredSpec (f : Filters) (d : Deal) : Bool :=
  match d.value_min, d.value_max with
  | none, none => decide (f.valueMin < 0)
  | _, _ =>
    let dealMin := (d.value_min.getD 0) / 1000000
    let dealMax := match d.value_max with
      | none => dealMin
      | some x => x / 1000000
    let filterMin := max f.valueMin 0
    decide ((filterMin ≤ dealMin ∧ dealMin ≤ f.valueMax) ∨
            (filterMin ≤ dealMax ∧ dealMax ≤ f.valueMax) ∨
            (dealMin ≤ filterMin ∧ f.valueMax ≤ dealMax))

/-- An open-ended deal ("20m+" style): disclosed lower bound of
20,000,000 base units, no upper bound. -/
def c1Deal : Deal :=
  { id := 1, data_receiver := "R", data_aggregator := "G", date := 2024,
    type := "Text", value_raw := "20m+", value_min := some 20000000,
    value_max := none, value_unit := some "USD", codes := ["C"],
    source_url := none }

/-- A filter window of 0–10 million with the undisclosed sentinel off. -/
def c1Filters : Filters :=
  { yearMin := 2016, yearMax := 2025, valueMin := 0, valueMax := 10,
    types := [], codes := [] }

/-- The function `snapToValueStep` from `src/app/page.tsx` lines 45–63: negative
input returns the sentinel `-1`; otherwise a scan over the steps
`[75, 150, 225, 300]` keeps the first step of strictly minimal distance
(initial candidate `steps[0] = 75` with distance `|value - steps[0]|`),
and an input in `[0, steps[0]/2)` is overridden to `steps[0]`. -/
def snapToValueStep (value : ℚ) : ℚ :=
  if value < 0 then -1
  else
    let steps : List ℚ := [75, 150, 225, 300]
    let closest := steps.foldl
      (fun acc step => if |value - step| < acc.2 then (step, |value - step|) else acc)
      (75, |value - 75|)
    if 0 ≤ value ∧ value < 75 / 2 then 75 else closest.1

/-- The function `snapToStep` from `src/components/Filters.tsx` lines 400–418; its
body is identical to `snapToValueStep` in `src/app/page.tsx`. -/
def snapToStep (value : ℚ) : ℚ :=
  if value < 0 then -1
  else
    let steps : List ℚ := [75, 150, 225, 300]
    let closest := steps.foldl
      (fun acc step => if |value - step| < acc.2 then (step, |value - step|) else acc)
      (75, |value - 75|)
    if 0 ≤ value ∧ value < 75 / 2 then 75 else closest.1

/-- JS `String.prototype.toLowerCase`, modelled character-wise. -/
def jsToLower (s : String) : String :=
  String.mk (s.data.map Char.toLower)

/-- JS `String.prototype.trim`: strip whitespace from both ends. -/
def jsTrim (s : String) : String :=
  String.mk (((s.data.dropWhile Char.isWhitespace).reverse.dropWhile
    Char.isWhitespace).reverse)

/-- Substring test on character lists (JS `String.prototype.includes`). -/
def strIncludesL (needle : List Char) : List Char → Bool
  | [] => needle.isEmpty
  | c :: t => needle.isPrefixOf (c :: t) || strIncludesL needle t

/-- JS `hay.includes(needle)`. -/
def strIncludes (hay needle : String) : Bool :=
  strIncludesL needle.data hay.data

/-- Node-selection sub-predicate (spec §4.1 item 1 / `src/app/page.tsx`
lines 97–104): passes when the selection is empty or the deal touches a
selected organization. -/
def nodeSelPred (sel : List String) (d : Deal) : Bool :=
  sel.isEmpty || sel.contains d.data_receiver || sel.contains d.data_aggregator

/-- Year sub-predicate (`src/app/page.tsx` lines 107–109). -/
def yearPred (f : Filters) (d : Deal) : Bool :=
  decide (f.yearMin ≤ d.date) && decide (d.date ≤ f.yearMax)

/-- Type sub-predicate (spec §4.1 item 4 / `src/app/page.tsx` lines
129–131): empty filter set accepts every deal. -/
def typePred (f : Filters) (d : Deal) : Bool :=
  f.types.isEmpty || f.types.contains d.type

/-- Codes sub-predicate (spec §4.1 item 5 / `src/app/page.tsx` lines
134–138): empty filter set accepts every deal. -/
def codesPred (f : Filters) (d : Deal) : Bool :=
  f.codes.isEmpty || d.codes.any (fun code => f.codes.contains code)

/-- The per-field search test of `src/app/page.tsx` lines 143–149,
with `query` already lower-cased and trimmed. -/
def searchMatch (query : String) (d : Deal) : Bool :=
  strIncludes (jsToLower d.data_receiver) query ||
  strIncludes (jsToLower d.data_aggregator) query ||
  strIncludes (jsToLower d.type) query ||
  strIncludes (jsToLower d.value_raw) query ||
  d.codes.any (fun code => strIncludes (jsToLower code) query)

/-- Search sub-predicate (spec §4.1 item 6): passes when the query is
empty/whitespace, otherwise when the lower-cased trimmed query occurs in
one of the searched fields. -/
def searchPred (searchQuery : String) (d : Deal) : Bool :=
  decide (jsTrim searchQuery = "") || searchMatch (jsTrim (jsToLower searchQuery)) d

/-- The function `applyFilters` from `src/app/page.tsx` lines 92–153: the sequential
filter pipeline exactly as written (conditional stages are skipped when
their filter set is empty / the query is blank). -/
def applyFilters (deals : List Deal) (selectedNodes : List String)
    (f : Filters) (searchQuery : String) : List Deal :=
  let filtered := deals
  let filtered := if 0 < selectedNodes.length then
      filtered.filter (fun d =>
        selectedNodes.contains d.data_receiver ||
        selectedNodes.contains d.data_aggregator)
    else filtered
  let filtered := filtered.filter
    (fun d => decide (f.yearMin ≤ d.date) && decide (d.date ≤ f.yearMax))
  let filtered := filtered.filter (fun d => valuePred f d)
  let filtered := if 0 < f.types.length then
      filtered.filter (fun d => f.types.contains d.type)
    else filtered
  let filtered := if 0 < f.codes.length then
      filtered.filter (fun d => d.codes.any (fun code => f.codes.contains code))
    else filtered
  let filtered := if jsTrim searchQuery ≠ "" then
      let query := jsTrim (jsToLower searchQuery)
      filtered.filter (fun d =>
        strIncludes (jsToLower d.data_receiver) query ||
        strIncludes (jsToLower d.data_aggregator) query ||
        strIncludes (jsToLower d.type) query ||
        strIncludes (jsToLower d.value_raw) query ||
        d.codes.any (fun code => strIncludes (jsToLower code) query))
    else filtered
  filtered

/-- The conjunction of the six sub-predicates of spec §4.1. -/
def dealPasses (sel : List String) (f : Filters) (q : String) (d : Deal) : Bool :=
  nodeSelPred sel d && yearPred f d && valuePred f d &&
  typePred f d && codesPred f d && searchPred q d

/-- An entry of the `nodesMap` insertion-ordered map of
`src/components/NetworkGraph.tsx` lines 132–148. -/
structure NodeEntry where
  name : String
  count : ℕ
deriving DecidableEq

/-- JS `nodesMap.has(k)`. -/
def mapHasName (m : List NodeEntry) (k : String) : Bool :=
  m.any (fun e => e.name == k)

/-- JS `nodesMap.get(k)!.count++`: bump the count of the entry named `k`
(no effect when `k` is absent). -/
def bumpNode : List NodeEntry → String → List NodeEntry
  | [], _ => []
  | e :: t, k =>
    if e.name == k then { e with count := e.count + 1 } :: t
    else e :: bumpNode t k

/-- JS `if (!nodesMap.has(k)) nodesMap.set(k, {name: k, count: 0})`. -/
def ensureNode (m : List NodeEntry) (k : String) : List NodeEntry :=
  if mapHasName m k then m else m ++ [⟨k, 0⟩]

/-- The body of the `deals.forEach` loop building `nodesMap`
(`src/components/NetworkGraph.tsx` lines 135–148): ensure entries for
the receiver and the aggregator, then increment both counts. -/
def updateNodes (m : List NodeEntry) (d : Deal) : List NodeEntry :=
  bumpNode
    (bumpNode (ensureNode (ensureNode m d.data_receiver) d.data_aggregator)
      d.data_receiver)
    d.data_aggregator

/-- The `nodesMap` contents after processing the whole deal list, in insertion order
(`Array.from(nodesMap.values())`). -/
def nodesMap (deals : List Deal) : List NodeEntry :=
  deals.foldl updateNodes []

/-- An entry of the `linkMap` of `src/components/NetworkGraph.tsx`
lines 157–168, keyed by the string `aggregator + "->" + receiver`. -/
structure LinkEntry where
  key : String
  source : String
  target : String
  count : ℕ
deriving DecidableEq

/-- The map key \x60${deal.data_aggregator}->${deal.data_receiver}\x60. -/
def dealKey (d : Deal) : String :=
  d.data_aggregator ++ "->" ++ d.data_receiver

/-- JS `linkMap.has(k)`. -/
def mapHasKey (m : List LinkEntry) (k : String) : Bool :=
  m.any (fun e => e.key == k)

/-- JS `linkMap.get(key)!.count++`. -/
def bumpLink : List LinkEntry → String → List LinkEntry
  | [], _ => []
  | e :: t, k =>
    if e.key == k then { e with count := e.count + 1 } :: t
    else e :: bumpLink t k

/-- The body of the `deals.forEach` loop building `linkMap`
(`src/components/NetworkGraph.tsx` lines 158–168). -/
def updateLinks (m : List LinkEntry) (d : Deal) : List LinkEntry :=
  let m1 :=
    if mapHasKey m (dealKey d) then m
    else m ++ [⟨dealKey d, d.data_aggregator, d.data_receiver, 0⟩]
  bumpLink m1 (dealKey d)

/-- The `linkMap` contents after processing the whole deal list, in insertion order. -/
def linkMap (deals : List Deal) : List LinkEntry :=
  deals.foldl updateLinks []

/-- A rendered graph node (`nodes` array of
`src/components/NetworkGraph.tsx` lines 150–154): the map entry plus
its array index. -/
structure GNode where
  id : String
  count : ℕ
  index : ℕ
deriving DecidableEq

/-- JS `nodes = Array.from(nodesMap.values()).map((node, i) => ({id:
node.name, ...node, index: i}))`. -/
def nodes (deals : List Deal) : List GNode :=
  (nodesMap deals).enum.map (fun p => ⟨p.2.name, p.2.count, p.1⟩)

/-- A rendered graph edge with resolved endpoint indices. -/
structure GLink where
  source : ℕ
  target : ℕ
  count : ℕ
deriving DecidableEq

/-- JS `x || 0` applied to the possibly-`undefined` result of
`nodes.find(...)?.index` (`undefined` and `0` both give `0`). -/
def jsIndexOrZero (o : Option ℕ) : ℕ :=
  match o with
  | none => 0
  | some i => i

/-- The `links` array of `src/components/NetworkGraph.tsx` lines
170–174: map each link-map entry to endpoint indices (defaulting an
unresolved lookup to `0` via `|| 0`), then filter out entries whose
endpoints are `undefined` — which, after the defaulting, none are, so
the filter condition is constantly true. -/
def links (ns : List GNode) (es : List LinkEntry) : List GLink :=
  (es.map (fun e =>
    ({ source := jsIndexOrZero ((ns.find? (fun n => n.id == e.source)).map
         (fun n => n.index)),
       target := jsIndexOrZero ((ns.find? (fun n => n.id == e.target)).map
         (fun n => n.index)),
       count := e.count } : GLink))).filter (fun _ => true)

/-- The full edge construction of the graph component. -/
def graphLinks (deals : List Deal) : List GLink :=
  links (nodes deals) (linkMap deals)

/-- A deal with the given receiver and aggregator and neutral other
fields, used for concrete graph-construction inputs. -/
def mkDeal (i : ℤ) (recv agg : String) : Deal :=
  { id := i, data_receiver := recv, data_aggregator := agg, date := 2024,
    type := "T", value_raw := "Undisclosed", value_min := none,
    value_max := none, value_unit := none, codes := [], source_url := none }

/-- Number of deals in which organization `k` appears as receiver plus
the number in which it appears as aggregator (a self-deal is counted in
both addends). -/
def roleCount (deals : List Deal) (k : String) : ℕ :=
  deals.countP (fun d => d.data_receiver == k) +
  deals.countP (fun d => d.data_aggregator == k)

/-- The contribution of one deal to the node count of `k`. -/
def touchCount (d : Deal) (k : String) : ℕ :=
  (if d.data_receiver = k then 1 else 0) +
  (if d.data_aggregator = k then 1 else 0)

/-- The count stored for name `k` in a node map, when present. -/
def entryCount (m : List NodeEntry) (k : String) : Option ℕ :=
  (m.find? (fun e => e.name == k)).map NodeEntry.count

/-- The count stored for key `k` in a link map, when present. -/
def linkCount (m : List LinkEntry) (k : String) : Option ℕ :=
  (m.find? (fun e => e.key == k)).map LinkEntry.count

/-- The `valueRange` summary of the stats payload
(`src/app/api/stats/route.ts`). -/
structure ValueRange where
  min : ℚ
  max : ℚ
deriving DecidableEq

/-- The slice of the stats payload used by the page component:
`yearCounts` (year / count pairs, as an association list) and
`valueRange`. -/
structure Stats where
  yearCounts : List (ℤ × ℕ)
  valueRange : ValueRange
deriving DecidableEq

/-- The client-side state triple owned by the page component:
selection set, search query, filter state. -/
structure AppState where
  selectedNodes : List String
  searchQuery : String
  filters : Filters
deriving DecidableEq

/-- The function `resetAllFilters` from `src/app/page.tsx` lines 155–169: clears the
selection set and search query, and replaces the filter state with
`yearMin = 2016`, `yearMax = 2025`, `valueMin = -1`,
`valueMax = snapToValueStep (stats ? min 300 stats.valueRange.max : 300)`,
empty `types` and `codes`.  The previous state is ignored entirely. -/
def resetAllFilters (stats : Option Stats) (_prev : AppState) : AppState :=
  let rawValueMax : ℚ :=
    match stats with
    | some st => min 300 st.valueRange.max
    | none => 300
  { selectedNodes := [],
    searchQuery := "",
    filters :=
      { yearMin := 2016, yearMax := 2025, valueMin := -1,
        valueMax := snapToValueStep rawValueMax,
        types := [], codes := [] } }

/-- The default state that `resetAllFilters` is supposed to produce,
written out per the observed behaviour (fixed year constants 2016/2025,
sentinel `valueMin = -1`, `valueMax` the stats value-range maximum
clamped to 300 and snapped to a step, everything else empty). -/
def resetDefaults (stats : Option Stats) : AppState :=
  { selectedNodes := [],
    searchQuery := "",
    filters :=
      { yearMin := 2016, yearMax := 2025, valueMin := -1,
        valueMax := snapToValueStep
          (match stats with
           | some st => min 300 st.valueRange.max
           | none => 300),
        types := [], codes := [] } }

/-- The years listed in the stats payload (`Object.keys(stats.yearCounts)`),
as read by `src/components/Filters.tsx` lines 40–44. -/
def datasetYears (st : Stats) : List ℤ :=
  st.yearCounts.map Prod.fst

/-- JS `Math.min(...years)`: the dataset's smallest year
(`src/components/Filters.tsx` line 43). -/
def datasetMinYear (st : Stats) : ℤ :=
  match datasetYears st with
  | [] => 0
  | y :: t => t.foldl min y

/-- JS `Math.max(...years)`: the dataset's largest year
(`src/components/Filters.tsx` line 44). -/
def datasetMaxYear (st : Stats) : ℤ :=
  match datasetYears st with
  | [] => 0
  | y :: t => t.foldl max y

/-- A stats payload whose dataset spans only the year 2020. -/
def c8Stats : Stats :=
  { yearCounts := [(2020, 1)], valueRange := { min := 0, max := 100 } }

/-- An arbitrary pre-reset state. -/
def c8State : AppState :=
  { selectedNodes := ["X"], searchQuery := "q",
    filters := { yearMin := 2018, yearMax := 2019, valueMin := 5,
                 valueMax := 20, types := ["T"], codes := ["C"] } }

/-- The `handleMouseMove` handler of the year slider, `yearMin` knob
(`src/components/Filters.tsx` lines 219–223): the moved bound is
clamped against the opposite bound. -/
def yearSliderSetMin (roundedValue : ℤ) (f : Filters) : Filters :=
  { f with yearMin := min roundedValue f.yearMax }

/-- The `handleMouseMove` handler of the year slider, `yearMax` knob
(`src/components/Filters.tsx` lines 224–229). -/
def yearSliderSetMax (roundedValue : ℤ) (f : Filters) : Filters :=
  { f with yearMax := max roundedValue f.yearMin }

/-- The `handleMouseMove` handler of the value slider, `valueMin` knob
(`src/components/Filters.tsx` lines 458–472): snap, clamp into the
step range (sentinel stays `-1`), then clamp against `valueMax`. -/
def valueSliderSetMin (moveValue : ℚ) (f : Filters) : Filters :=
  let snappedValue := snapToStep moveValue
  let clampedValue := if snappedValue < 0 then -1 else max 75 (min 300 snappedValue)
  { f with valueMin := min clampedValue f.valueMax }

/-- The `handleMouseMove` handler of the value slider, `valueMax` knob
(`src/components/Filters.tsx` lines 473–478). -/
def valueSliderSetMax (moveValue : ℚ) (f : Filters) : Filters :=
  let snappedValue := snapToStep moveValue
  let clampedValue := if snappedValue < 0 then -1 else max 75 (min 300 snappedValue)
  { f with valueMax := max clampedValue f.valueMin }

/-- The hidden range inputs' `onChange` handlers for the value bounds
(`src/components/Filters.tsx` lines 498–527): negative values collapse
to the sentinel, then the moved bound is clamped against the opposite
bound. -/
def valueInputSetMin (val : ℚ) (f : Filters) : Filters :=
  let actualVal := if val < 0 then -1 else val
  { f with valueMin := min actualVal f.valueMax }

/-- See `valueInputSetMin`; the `valueMax` counterpart. -/
def valueInputSetMax (val : ℚ) (f : Filters) : Filters :=
  let actualVal := if val < 0 then -1 else val
  { f with valueMax := max actualVal f.valueMin }

/-- One slider / range-input update event. -/
inductive SliderUpdate where
  | yearLo (v : ℤ)
  | yearHi (v : ℤ)
  | valueLo (v : ℚ)
  | valueHi (v : ℚ)
  | valueLoInput (v : ℚ)
  | valueHiInput (v : ℚ)
deriving DecidableEq

/-- Dispatch one update event to its handler. -/
def applyUpdate (u : SliderUpdate) (f : Filters) : Filters :=
  match u with
  | SliderUpdate.yearLo v => yearSliderSetMin v f
  | SliderUpdate.yearHi v => yearSliderSetMax v f
  | SliderUpdate.valueLo v => valueSliderSetMin v f
  | SliderUpdate.valueHi v => valueSliderSetMax v f
  | SliderUpdate.valueLoInput v => valueInputSetMin v f
  | SliderUpdate.valueHiInput v => valueInputSetMax v f

/-- Apply a sequence of update events in order. -/
def applyUpdates (us : List SliderUpdate) (f : Filters) : Filters :=
  us.foldl (fun f u => applyUpdate u f) f

theorem snapToStep_eq : snapToStep = snapToValueStep := rfl

theorem pairFst (a b : ℚ) : ((a, b) : ℚ × ℚ).1 = a := rfl

theorem pairSnd (a b : ℚ) : ((a, b) : ℚ × ℚ).2 = b := rfl

theorem snapToValueStep_neg (v : ℚ) (h : v < 0) : snapToValueStep v = -1 := by
  rw [snapToValueStep, if_pos h]

theorem snapToValueStep_of_nonneg (v : ℚ) (h : 0 ≤ v) :
    snapToValueStep v =
      if 0 ≤ v ∧ v < 75 / 2 then 75
      else (List.foldl
        (fun acc step => if |v - step| < acc.2 then (step, |v - step|) else acc)
        ((75 : ℚ), |v - (75 : ℚ)|) [75, 150, 225, 300]).1 := by
  rw [snapToValueStep, if_neg (not_lt.mpr h)]

theorem snapToValueStep_eq_75 (v : ℚ) (h0 : 0 ≤ v) (h : v ≤ 225 / 2) :
    snapToValueStep v = 75 := by
  rw [snapToValueStep_of_nonneg v h0]
  have e150 : |v - (150 : ℚ)| = 150 - v := by
    rw [abs_sub_comm]; exact abs_of_nonneg (by linarith)
  have e225 : |v - (225 : ℚ)| = 225 - v := by
    rw [abs_sub_comm]; exact abs_of_nonneg (by linarith)
  have e300 : |v - (300 : ℚ)| = 300 - v := by
    rw [abs_sub_comm]; exact abs_of_nonneg (by linarith)
  rcases abs_cases (v - (75 : ℚ)) with ⟨e75, f75⟩ | ⟨e75, f75⟩ <;>
    simp only [List.foldl_cons, List.foldl_nil, e75, e150, e225, e300, pairFst, pairSnd] <;>
    split_ifs <;> first | rfl | (exfalso; simp only [pairSnd] at *; linarith)

theorem snapToValueStep_eq_150 (v : ℚ) (h1 : 225 / 2 < v) (h2 : v ≤ 375 / 2) :
    snapToValueStep v = 150 := by
  rw [snapToValueStep_of_nonneg v (by linarith)]
  have e75 : |v - (75 : ℚ)| = v - 75 := abs_of_nonneg (by linarith)
  have e225 : |v - (225 : ℚ)| = 225 - v := by
    rw [abs_sub_comm]; exact abs_of_nonneg (by linarith)
  have e300 : |v - (300 : ℚ)| = 300 - v := by
    rw [abs_sub_comm]; exact abs_of_nonneg (by linarith)
  rcases abs_cases (v - (150 : ℚ)) with ⟨e150, f150⟩ | ⟨e150, f150⟩ <;>
    simp only [List.foldl_cons, List.foldl_nil, e75, e150, e225, e300, pairFst, pairSnd] <;>
    split_ifs <;> first | rfl | (exfalso; simp only [pairSnd] at *; linarith)

theorem snapToValueStep_eq_225 (v : ℚ) (h1 : 375 / 2 < v) (h2 : v ≤ 525 / 2) :
    snapToValueStep v = 225 := by
  rw [snapToValueStep_of_nonneg v (by linarith)]
  have e75 : |v - (75 : ℚ)| = v - 75 := abs_of_nonneg (by linarith)
  have e150 : |v - (150 : ℚ)| = v - 150 := abs_of_nonneg (by linarith)
  have e300 : |v - (300 : ℚ)| = 300 - v := by
    rw [abs_sub_comm]; exact abs_of_nonneg (by linarith)
  rcases abs_cases (v - (225 : ℚ)) with ⟨e225, f225⟩ | ⟨e225, f225⟩ <;>
    simp only [List.foldl_cons, List.foldl_nil, e75, e150, e225, e300, pairFst, pairSnd] <;>
    split_ifs <;> first | rfl | (exfalso; simp only [pairSnd] at *; linarith)

theorem snapToValueStep_eq_300 (v : ℚ) (h1 : 525 / 2 < v) :
    snapToValueStep v = 300 := by
  rw [snapToValueStep_of_nonneg v (by linarith)]
  have e75 : |v - (75 : ℚ)| = v - 75 := abs_of_nonneg (by linarith)
  have e150 : |v - (150 : ℚ)| = v - 150 := abs_of_nonneg (by linarith)
  have e225 : |v - (225 : ℚ)| = v - 225 := abs_of_nonneg (by linarith)
  rcases abs_cases (v - (300 : ℚ)) with ⟨e300, f300⟩ | ⟨e300, f300⟩ <;>
    simp only [List.foldl_cons, List.foldl_nil, e75, e150, e225, e300, pairFst, pairSnd] <;>
    split_ifs <;> first | rfl | (exfalso; simp only [pairSnd] at *; linarith)

theorem snapToValueStep_nearest (v : ℚ) (h0 : 0 ≤ v) :
    snapToValueStep v ∈ ([75, 150, 225, 300] : List ℚ) ∧
    ∀ s ∈ ([75, 150, 225, 300] : List ℚ),
      |v - snapToValueStep v| ≤ |v - s| ∧
      (|v - snapToValueStep v| = |v - s| → snapToValueStep v ≤ s) := by
  have key : ∀ c : ℚ, snapToValueStep v = c → c ∈ ([75, 150, 225, 300] : List ℚ) →
      (∀ s ∈ ([75, 150, 225, 300] : List ℚ),
        (|v - c| ≤ |v - s| ∧ (|v - c| = |v - s| → c ≤ s))) →
      snapToValueStep v ∈ ([75, 150, 225, 300] : List ℚ) ∧
      ∀ s ∈ ([75, 150, 225, 300] : List ℚ),
        |v - snapToValueStep v| ≤ |v - s| ∧
        (|v - snapToValueStep v| = |v - s| → snapToValueStep v ≤ s) := by
    intro c hc hmem hall
    rw [hc]; exact ⟨hmem, hall⟩
  rcases le_or_lt v (225 / 2) with hr | hr
  · refine key 75 (snapToValueStep_eq_75 v h0 hr) (by norm_num) ?_
    have e150 : |v - (150 : ℚ)| = 150 - v := by
      rw [abs_sub_comm]; exact abs_of_nonneg (by linarith)
    have e225 : |v - (225 : ℚ)| = 225 - v := by
      rw [abs_sub_comm]; exact abs_of_nonneg (by linarith)
    have e300 : |v - (300 : ℚ)| = 300 - v := by
      rw [abs_sub_comm]; exact abs_of_nonneg (by linarith)
    intro s hs
    simp only [List.mem_cons, List.not_mem_nil, or_false] at hs
    rcases abs_cases (v - (75 : ℚ)) with ⟨e75, f75⟩ | ⟨e75, f75⟩ <;>
      rcases hs with rfl | rfl | rfl | rfl <;>
      simp only [e75, e150, e225, e300] <;>
      exact ⟨by linarith, fun heq => by linarith⟩
  · rcases le_or_lt v (375 / 2) with hr2 | hr2
    · refine key 150 (snapToValueStep_eq_150 v hr hr2) (by norm_num) ?_
      have e75 : |v - (75 : ℚ)| = v - 75 := abs_of_nonneg (by linarith)
      have e225 : |v - (225 : ℚ)| = 225 - v := by
        rw [abs_sub_comm]; exact abs_of_nonneg (by linarith)
      have e300 : |v - (300 : ℚ)| = 300 - v := by
        rw [abs_sub_comm]; exact abs_of_nonneg (by linarith)
      intro s hs
      simp only [List.mem_cons, List.not_mem_nil, or_false] at hs
      rcases abs_cases (v - (150 : ℚ)) with ⟨e150, f150⟩ | ⟨e150, f150⟩ <;>
        rcases hs with rfl | rfl | rfl | rfl <;>
        simp only [e75, e150, e225, e300] <;>
        exact ⟨by linarith, fun heq => by linarith⟩
    · rcases le_or_lt v (525 / 2) with hr3 | hr3
      · refine key 225 (snapToValueStep_eq_225 v hr2 hr3) (by norm_num) ?_
        have e75 : |v - (75 : ℚ)| = v - 75 := abs_of_nonneg (by linarith)
        have e150 : |v - (150 : ℚ)| = v - 150 := abs_of_nonneg (by linarith)
        have e300 : |v - (300 : ℚ)| = 300 - v := by
          rw [abs_sub_comm]; exact abs_of_nonneg (by linarith)
        intro s hs
        simp only [List.mem_cons, List.not_mem_nil, or_false] at hs
        rcases abs_cases (v - (225 : ℚ)) with ⟨e225, f225⟩ | ⟨e225, f225⟩ <;>
          rcases hs with rfl | rfl | rfl | rfl <;>
          simp only [e75, e150, e225, e300] <;>
          exact ⟨by linarith, fun heq => by linarith⟩
      · refine key 300 (snapToValueStep_eq_300 v hr3) (by norm_num) ?_
        have e75 : |v - (75 : ℚ)| = v - 75 := abs_of_nonneg (by linarith)
        have e150 : |v - (150 : ℚ)| = v - 150 := abs_of_nonneg (by linarith)
        have e225 : |v - (225 : ℚ)| = v - 225 := abs_of_nonneg (by linarith)
        intro s hs
        simp only [List.mem_cons, List.not_mem_nil, or_false] at hs
        rcases abs_cases (v - (300 : ℚ)) with ⟨e300, f300⟩ | ⟨e300, f300⟩ <;>
          rcases hs with rfl | rfl | rfl | rfl <;>
          simp only [e75, e150, e225, e300] <;>
          exact ⟨by linarith, fun heq => by linarith⟩

theorem ifGuardFilter {α : Type} (P : Prop) [Decidable P] (p : α → Bool)
    (l : List α) :
    (if P then l.filter p else l) = l.filter (fun a => !(decide P) || p a) := by
  by_cases h : P
  · simp [h]
  · simp [h]

set_option maxHeartbeats 1600000 in
theorem applyFilters_eq_filter (deals : List Deal) (sel : List String)
    (f : Filters) (q : String) :
    applyFilters deals sel f q = deals.filter (dealPasses sel f q) := by
  simp only [applyFilters]
  rw [ifGuardFilter, ifGuardFilter, ifGuardFilter, ifGuardFilter]
  simp only [List.filter_filter]
  refine List.filter_congr ?_
  intro d _
  rw [Bool.eq_iff_iff]
  simp only [dealPasses, nodeSelPred, yearPred, typePred, codesPred, searchPred,
    searchMatch, Bool.and_eq_true, Bool.or_eq_true, Bool.not_eq_true',
    decide_eq_true_eq, decide_eq_false_iff_not, List.isEmpty_iff,
    List.length_pos, not_not]
  tauto

theorem applyFilters_sublist (deals : List Deal) (sel : List String)
    (f : Filters) (q : String) :
    List.Sublist (applyFilters deals sel f q) deals := by
  rw [applyFilters_eq_filter]
  exact List.filter_sublist deals

theorem entryCount_nil (k : String) : entryCount [] k = none := rfl

theorem entryCount_cons (e : NodeEntry) (t : List NodeEntry) (k : String) :
    entryCount (e :: t) k = if e.name = k then some e.count else entryCount t k := by
  by_cases h : e.name = k <;> simp [entryCount, List.find?_cons, h]

theorem bumpNode_names (m : List NodeEntry) (k : String) :
    (bumpNode m k).map NodeEntry.name = m.map NodeEntry.name := by
  induction m with
  | nil => rfl
  | cons e t ih =>
    by_cases h : e.name = k <;> simp [bumpNode, h, ih]

theorem entryCount_bumpNode_self (m : List NodeEntry) (k : String) :
    entryCount (bumpNode m k) k = (entryCount m k).map (· + 1) := by
  induction m with
  | nil => rfl
  | cons e t ih =>
    by_cases h : e.name = k
    · simp [bumpNode, h, entryCount_cons]
    · simp [bumpNode, h, entryCount_cons, ih]

theorem entryCount_bumpNode_other (m : List NodeEntry) (k k' : String)
    (h : k' ≠ k) :
    entryCount (bumpNode m k) k' = entryCount m k' := by
  have hkk : ¬(k = k') := fun hk => h hk.symm
  induction m with
  | nil => rfl
  | cons e t ih =>
    by_cases he : e.name = k
    · simp [bumpNode, he, entryCount_cons, hkk]
    · by_cases he' : e.name = k'
      · simp [bumpNode, he, he', entryCount_cons, h]
      · simp [bumpNode, he, entryCount_cons, he', ih]

theorem mapHasName_iff (m : List NodeEntry) (k : String) :
    mapHasName m k = true ↔ (entryCount m k).isSome := by
  induction m with
  | nil => simp [mapHasName, entryCount_nil]
  | cons e t ih =>
    by_cases h : e.name = k <;>
      simp [mapHasName, entryCount_cons, h, ← ih, List.any_cons]

theorem entryCount_append_self (m : List NodeEntry) (k : String)
    (h : entryCount m k = none) :
    entryCount (m ++ [⟨k, 0⟩]) k = some 0 := by
  induction m with
  | nil => simp [entryCount_cons]
  | cons e t ih =>
    rw [entryCount_cons] at h
    by_cases he : e.name = k
    · simp [he] at h
    · rw [List.cons_append, entryCount_cons, if_neg he]
      exact ih (by simpa [he] using h)

theorem entryCount_append_other (m : List NodeEntry) (k k' : String)
    (h : k' ≠ k) :
    entryCount (m ++ [⟨k, 0⟩]) k' = entryCount m k' := by
  have hkk : ¬(k = k') := fun hk => h hk.symm
  induction m with
  | nil => simp [entryCount_nil, entryCount_cons, hkk]
  | cons e t ih =>
    by_cases he : e.name = k' <;>
      simp [List.cons_append, entryCount_cons, he, ih]

theorem entryCount_ensureNode_self (m : List NodeEntry) (k : String) :
    entryCount (ensureNode m k) k = some ((entryCount m k).getD 0) := by
  by_cases h : mapHasName m k
  · rcases Option.isSome_iff_exists.mp ((mapHasName_iff m k).mp h) with ⟨c, hc⟩
    simp [ensureNode, h, hc]
  · have hn : entryCount m k = none := by
      rcases hee : entryCount m k with _ | c
      · rfl
      · exact absurd ((mapHasName_iff m k).mpr (by simp [hee])) h
    simp [ensureNode, h, entryCount_append_self m k hn, hn]

theorem entryCount_ensureNode_other (m : List NodeEntry) (k k' : String)
    (h : k' ≠ k) :
    entryCount (ensureNode m k) k' = entryCount m k' := by
  by_cases hm : mapHasName m k <;>
    simp [ensureNode, hm, entryCount_append_other m k k' h]

theorem entryCount_updateNodes (m : List NodeEntry) (d : Deal) (k : String) :
    entryCount (updateNodes m d) k =
      if d.data_receiver = k ∨ d.data_aggregator = k
      then some ((entryCount m k).getD 0 + touchCount d k)
      else entryCount m k := by
  by_cases hr : d.data_receiver = k <;> by_cases ha : d.data_aggregator = k
  · rw [updateNodes, hr, ha]
    rw [entryCount_bumpNode_self, entryCount_bumpNode_self,
      entryCount_ensureNode_self, entryCount_ensureNode_self]
    simp [touchCount, hr, ha]
  · rw [updateNodes, hr]
    rw [entryCount_bumpNode_other _ _ _ (fun hk => ha hk.symm),
      entryCount_bumpNode_self,
      entryCount_ensureNode_other _ _ _ (fun hk => ha hk.symm),
      entryCount_ensureNode_self]
    simp [touchCount, hr, ha]
  · rw [updateNodes, ha]
    rw [entryCount_bumpNode_self,
      entryCount_bumpNode_other _ _ _ (fun hk => hr hk.symm),
      entryCount_ensureNode_self,
      entryCount_ensureNode_other _ _ _ (fun hk => hr hk.symm)]
    simp [touchCount, hr, ha]
  · rw [updateNodes,
      entryCount_bumpNode_other _ _ _ (fun hk => ha hk.symm),
      entryCount_bumpNode_other _ _ _ (fun hk => hr hk.symm),
      entryCount_ensureNode_other _ _ _ (fun hk => ha hk.symm),
      entryCount_ensureNode_other _ _ _ (fun hk => hr hk.symm)]
    simp [hr, ha]

theorem roleCount_cons (d : Deal) (t : List Deal) (k : String) :
    roleCount (d :: t) k = touchCount d k + roleCount t k := by
  by_cases hr : d.data_receiver = k <;> by_cases ha : d.data_aggregator = k <;>
    simp [roleCount, touchCount, List.countP_cons, hr, ha] <;> omega

theorem entryCount_foldl (ds : List Deal) (m : List NodeEntry) (k : String) :
    entryCount (ds.foldl updateNodes m) k =
      if (∃ d ∈ ds, d.data_receiver = k ∨ d.data_aggregator = k) ∨
         (entryCount m k).isSome
      then some ((entryCount m k).getD 0 + roleCount ds k)
      else none := by
  induction ds generalizing m with
  | nil =>
    rcases h : entryCount m k with _ | c <;> simp [h, roleCount]
  | cons d t ih =>
    rw [List.foldl_cons, ih, roleCount_cons]
    by_cases hd : d.data_receiver = k ∨ d.data_aggregator = k
    · have h1 : entryCount (updateNodes m d) k =
          some ((entryCount m k).getD 0 + touchCount d k) := by
        rw [entryCount_updateNodes, if_pos hd]
      have hex : ∃ d' ∈ d :: t, d'.data_receiver = k ∨ d'.data_aggregator = k :=
        ⟨d, List.mem_cons_self d t, hd⟩
      rw [h1, if_pos (Or.inr (by simp)), if_pos (Or.inl hex)]
      simp only [Option.getD_some]
      congr 1
      omega
    · have h1 : entryCount (updateNodes m d) k = entryCount m k := by
        rw [entryCount_updateNodes, if_neg hd]
      have htouch : touchCount d k = 0 := by
        push_neg at hd
        simp [touchCount, hd.1, hd.2]
      have hiff : (∃ d' ∈ d :: t, d'.data_receiver = k ∨ d'.data_aggregator = k) ↔
          (∃ d' ∈ t, d'.data_receiver = k ∨ d'.data_aggregator = k) := by
        constructor
        · rintro ⟨d', hd', hk⟩
          rcases List.mem_cons.mp hd' with rfl | hmem
          · exact absurd hk hd
          · exact ⟨d', hmem, hk⟩
        · rintro ⟨d', hd', hk⟩
          exact ⟨d', List.mem_cons_of_mem _ hd', hk⟩
      rw [h1, htouch]
      by_cases h2 : (∃ d' ∈ t, d'.data_receiver = k ∨ d'.data_aggregator = k) ∨
          (entryCount m k).isSome
      · have h2' : (∃ d' ∈ d :: t, d'.data_receiver = k ∨ d'.data_aggregator = k) ∨
            (entryCount m k).isSome = true := h2.imp hiff.mpr id
        rw [if_pos h2, if_pos h2']
        congr 1
        omega
      · have h2' : ¬((∃ d' ∈ d :: t, d'.data_receiver = k ∨ d'.data_aggregator = k) ∨
            (entryCount m k).isSome = true) := fun hc => h2 (hc.imp hiff.mp id)
        rw [if_neg h2, if_neg h2']

theorem nodesMap_count_spec (deals : List Deal) (k : String) :
    entryCount (nodesMap deals) k =
      if ∃ d ∈ deals, d.data_receiver = k ∨ d.data_aggregator = k
      then some (roleCount deals k)
      else none := by
  rw [nodesMap, entryCount_foldl]
  simp [entryCount_nil]

theorem mapHasName_eq_mem (m : List NodeEntry) (k : String) :
    mapHasName m k = true ↔ k ∈ m.map NodeEntry.name := by
  simp only [mapHasName, List.any_eq_true, beq_iff_eq, List.mem_map]

theorem ensureNode_names (m : List NodeEntry) (k : String) :
    (ensureNode m k).map NodeEntry.name =
      if mapHasName m k then m.map NodeEntry.name
      else m.map NodeEntry.name ++ [k] := by
  by_cases h : mapHasName m k <;> simp [ensureNode, h]

theorem ensureNode_nodup (m : List NodeEntry) (k : String)
    (h : (m.map NodeEntry.name).Nodup) :
    ((ensureNode m k).map NodeEntry.name).Nodup := by
  rw [ensureNode_names]
  by_cases hm : mapHasName m k
  · simpa [hm] using h
  · have hk : k ∉ m.map NodeEntry.name := fun hmem =>
      hm ((mapHasName_eq_mem m k).mpr hmem)
    simp only [hm, if_neg, Bool.false_eq_true, if_false]
    exact List.Nodup.append h (List.nodup_singleton k)
      (by simpa [List.disjoint_singleton] using hk)

theorem bumpNode_nodup (m : List NodeEntry) (k : String)
    (h : (m.map NodeEntry.name).Nodup) :
    ((bumpNode m k).map NodeEntry.name).Nodup := by
  rw [bumpNode_names]; exact h

theorem updateNodes_nodup (m : List NodeEntry) (d : Deal)
    (h : (m.map NodeEntry.name).Nodup) :
    ((updateNodes m d).map NodeEntry.name).Nodup := by
  exact bumpNode_nodup _ _ (bumpNode_nodup _ _
    (ensureNode_nodup _ _ (ensureNode_nodup _ _ h)))

theorem nodesMap_nodup (deals : List Deal) :
    ((nodesMap deals).map NodeEntry.name).Nodup := by
  rw [nodesMap]
  have : ∀ (ds : List Deal) (m : List NodeEntry),
      (m.map NodeEntry.name).Nodup →
      ((ds.foldl updateNodes m).map NodeEntry.name).Nodup := by
    intro ds
    induction ds with
    | nil => intro m h; simpa using h
    | cons d t ih =>
      intro m h
      rw [List.foldl_cons]
      exact ih _ (updateNodes_nodup m d h)
  exact this deals [] (by simp)

theorem mem_names_iff_isSome (m : List NodeEntry) (k : String) :
    k ∈ m.map NodeEntry.name ↔ (entryCount m k).isSome := by
  rw [← mapHasName_eq_mem]
  exact mapHasName_iff m k

theorem entryCount_of_mem_nodup (m : List NodeEntry) (e : NodeEntry)
    (hnd : (m.map NodeEntry.name).Nodup) (hmem : e ∈ m) :
    entryCount m e.name = some e.count := by
  induction m with
  | nil => cases hmem
  | cons f t ih =>
    rcases List.mem_cons.mp hmem with rfl | hmem'
    · simp [entryCount_cons]
    · have hne : f.name ≠ e.name := by
        intro heq
        have : e.name ∈ t.map NodeEntry.name :=
          List.mem_map_of_mem NodeEntry.name hmem'
        rw [List.map_cons, List.nodup_cons] at hnd
        exact hnd.1 (heq ▸ this)
      rw [entryCount_cons, if_neg hne]
      exact ih (by rw [List.map_cons, List.nodup_cons] at hnd; exact hnd.2) hmem'

theorem linkCount_nil (k : String) : linkCount [] k = none := rfl

theorem linkCount_cons (e : LinkEntry) (t : List LinkEntry) (k : String) :
    linkCount (e :: t) k = if e.key = k then some e.count else linkCount t k := by
  by_cases h : e.key = k <;> simp [linkCount, List.find?_cons, h]

theorem bumpLink_keys (m : List LinkEntry) (k : String) :
    (bumpLink m k).map LinkEntry.key = m.map LinkEntry.key := by
  induction m with
  | nil => rfl
  | cons e t ih =>
    by_cases h : e.key = k <;> simp [bumpLink, h, ih]

theorem linkCount_bumpLink_self (m : List LinkEntry) (k : String) :
    linkCount (bumpLink m k) k = (linkCount m k).map (· + 1) := by
  induction m with
  | nil => rfl
  | cons e t ih =>
    by_cases h : e.key = k
    · simp [bumpLink, h, linkCount_cons]
    · simp [bumpLink, h, linkCount_cons, ih]

theorem linkCount_bumpLink_other (m : List LinkEntry) (k k' : String)
    (h : k' ≠ k) :
    linkCount (bumpLink m k) k' = linkCount m k' := by
  have hkk : ¬(k = k') := fun hk => h hk.symm
  induction m with
  | nil => rfl
  | cons e t ih =>
    by_cases he : e.key = k
    · simp [bumpLink, he, linkCount_cons, hkk]
    · by_cases he' : e.key = k'
      · simp [bumpLink, he, he', linkCount_cons, h]
      · simp [bumpLink, he, linkCount_cons, he', ih]

theorem mapHasKey_iff (m : List LinkEntry) (k : String) :
    mapHasKey m k = true ↔ (linkCount m k).isSome := by
  induction m with
  | nil => simp [mapHasKey, linkCount_nil]
  | cons e t ih =>
    by_cases h : e.key = k <;>
      simp [mapHasKey, linkCount_cons, h, ← ih, List.any_cons]

theorem mapHasKey_eq_mem (m : List LinkEntry) (k : String) :
    mapHasKey m k = true ↔ k ∈ m.map LinkEntry.key := by
  simp only [mapHasKey, List.any_eq_true, beq_iff_eq, List.mem_map]

theorem linkCount_append_self (m : List LinkEntry) (e : LinkEntry)
    (h : linkCount m e.key = none) :
    linkCount (m ++ [e]) e.key = some e.count := by
  induction m with
  | nil => simp [linkCount_cons]
  | cons f t ih =>
    rw [linkCount_cons] at h
    by_cases hf : f.key = e.key
    · simp [hf] at h
    · rw [List.cons_append, linkCount_cons, if_neg hf]
      exact ih (by simpa [hf] using h)

theorem linkCount_append_other (m : List LinkEntry) (e : LinkEntry)
    (k' : String) (h : k' ≠ e.key) :
    linkCount (m ++ [e]) k' = linkCount m k' := by
  have hkk : ¬(e.key = k') := fun hk => h hk.symm
  induction m with
  | nil => simp [linkCount_nil, linkCount_cons, hkk]
  | cons f t ih =>
    by_cases hf : f.key = k' <;>
      simp [List.cons_append, linkCount_cons, hf, ih]

theorem linkCount_updateLinks_self (m : List LinkEntry) (d : Deal) :
    linkCount (updateLinks m d) (dealKey d) =
      some ((linkCount m (dealKey d)).getD 0 + 1) := by
  rw [updateLinks]
  by_cases h : mapHasKey m (dealKey d)
  · rcases Option.isSome_iff_exists.mp ((mapHasKey_iff m (dealKey d)).mp h) with ⟨c, hc⟩
    simp only [h, if_pos, if_true]
    rw [linkCount_bumpLink_self, hc]
    simp
  · have hn : linkCount m (dealKey d) = none := by
      rcases hee : linkCount m (dealKey d) with _ | c
      · rfl
      · exact absurd ((mapHasKey_iff m (dealKey d)).mpr (by simp [hee])) h
    simp only [h, Bool.false_eq_true, if_false]
    rw [linkCount_bumpLink_self,
      linkCount_append_self m ⟨dealKey d, d.data_aggregator, d.data_receiver, 0⟩ hn,
      hn]
    simp

theorem linkCount_updateLinks_other (m : List LinkEntry) (d : Deal)
    (k' : String) (h : k' ≠ dealKey d) :
    linkCount (updateLinks m d) k' = linkCount m k' := by
  rw [updateLinks]
  by_cases hm : mapHasKey m (dealKey d)
  · simp only [hm, if_pos, if_true]
    exact linkCount_bumpLink_other m (dealKey d) k' h
  · simp only [hm, Bool.false_eq_true, if_false]
    rw [linkCount_bumpLink_other _ _ _ h,
      linkCount_append_other m ⟨dealKey d, d.data_aggregator, d.data_receiver, 0⟩ k' h]

theorem linkCount_foldl (ds : List Deal) (m : List LinkEntry) (k : String) :
    linkCount (ds.foldl updateLinks m) k =
      if (∃ d ∈ ds, dealKey d = k) ∨ (linkCount m k).isSome
      then some ((linkCount m k).getD 0 + ds.countP (fun d => dealKey d == k))
      else none := by
  induction ds generalizing m with
  | nil =>
    rcases h : linkCount m k with _ | c <;> simp [h]
  | cons d t ih =>
    rw [List.foldl_cons, ih]
    by_cases hd : dealKey d = k
    · have h1 : linkCount (updateLinks m d) k =
          some ((linkCount m k).getD 0 + 1) := by
        rw [← hd]; exact linkCount_updateLinks_self m d
      have hex : ∃ d' ∈ d :: t, dealKey d' = k := ⟨d, List.mem_cons_self d t, hd⟩
      rw [h1, if_pos (Or.inr (by simp)), if_pos (Or.inl hex)]
      simp only [Option.getD_some, List.countP_cons, hd]
      simp
      omega
    · have h1 : linkCount (updateLinks m d) k = linkCount m k :=
        linkCount_updateLinks_other m d k (fun hk => hd hk.symm)
      have hiff : (∃ d' ∈ d :: t, dealKey d' = k) ↔ (∃ d' ∈ t, dealKey d' = k) := by
        constructor
        · rintro ⟨d', hd', hk⟩
          rcases List.mem_cons.mp hd' with rfl | hmem
          · exact absurd hk hd
          · exact ⟨d', hmem, hk⟩
        · rintro ⟨d', hd', hk⟩
          exact ⟨d', List.mem_cons_of_mem _ hd', hk⟩
      have hcnt : (d :: t).countP (fun d' => dealKey d' == k) =
          t.countP (fun d' => dealKey d' == k) := by
        simp [List.countP_cons, hd]
      rw [h1, hcnt]
      by_cases h2 : (∃ d' ∈ t, dealKey d' = k) ∨ (linkCount m k).isSome
      · have h2' : (∃ d' ∈ d :: t, dealKey d' = k) ∨ (linkCount m k).isSome = true :=
          h2.imp hiff.mpr id
        rw [if_pos h2, if_pos h2']
      · have h2' : ¬((∃ d' ∈ d :: t, dealKey d' = k) ∨ (linkCount m k).isSome = true) :=
          fun hc => h2 (hc.imp hiff.mp id)
        rw [if_neg h2, if_neg h2']

theorem linkMap_count_spec (deals : List Deal) (k : String) :
    linkCount (linkMap deals) k =
      if ∃ d ∈ deals, dealKey d = k
      then some (deals.countP (fun d => dealKey d == k))
      else none := by
  rw [linkMap, linkCount_foldl]
  simp [linkCount_nil]

theorem updateLinks_keys_nodup (m : List LinkEntry) (d : Deal)
    (h : (m.map LinkEntry.key).Nodup) :
    ((updateLinks m d).map LinkEntry.key).Nodup := by
  rw [updateLinks]
  by_cases hm : mapHasKey m (dealKey d)
  · simp only [hm, if_pos, if_true]
    rw [bumpLink_keys]; exact h
  · have hk : dealKey d ∉ m.map LinkEntry.key := fun hmem =>
      hm ((mapHasKey_eq_mem m (dealKey d)).mpr hmem)
    simp only [hm, Bool.false_eq_true, if_false]
    rw [bumpLink_keys, List.map_append]
    exact List.Nodup.append h (List.nodup_singleton _)
      (by simpa [List.disjoint_singleton] using hk)

theorem linkMap_nodup (deals : List Deal) :
    ((linkMap deals).map LinkEntry.key).Nodup := by
  rw [linkMap]
  have : ∀ (ds : List Deal) (m : List LinkEntry),
      (m.map LinkEntry.key).Nodup →
      ((ds.foldl updateLinks m).map LinkEntry.key).Nodup := by
    intro ds
    induction ds with
    | nil => intro m h; simpa using h
    | cons d t ih =>
      intro m h
      rw [List.foldl_cons]
      exact ih _ (updateLinks_keys_nodup m d h)
  exact this deals [] (by simp)

theorem mem_keys_iff_isSome (m : List LinkEntry) (k : String) :
    k ∈ m.map LinkEntry.key ↔ (linkCount m k).isSome := by
  rw [← mapHasKey_eq_mem]
  exact mapHasKey_iff m k

theorem linkCount_of_mem_nodup (m : List LinkEntry) (e : LinkEntry)
    (hnd : (m.map LinkEntry.key).Nodup) (hmem : e ∈ m) :
    linkCount m e.key = some e.count := by
  induction m with
  | nil => cases hmem
  | cons f t ih =>
    rcases List.mem_cons.mp hmem with rfl | hmem'
    · simp [linkCount_cons]
    · have hne : f.key ≠ e.key := by
        intro heq
        have : e.key ∈ t.map LinkEntry.key :=
          List.mem_map_of_mem LinkEntry.key hmem'
        rw [List.map_cons, List.nodup_cons] at hnd
        exact hnd.1 (heq ▸ this)
      rw [linkCount_cons, if_neg hne]
      exact ih (by rw [List.map_cons, List.nodup_cons] at hnd; exact hnd.2) hmem'

theorem bumpLink_mem (m : List LinkEntry) (k : String) (e : LinkEntry)
    (hmem : e ∈ bumpLink m k) :
    ∃ e' ∈ m, e.key = e'.key ∧ e.source = e'.source ∧ e.target = e'.target := by
  induction m with
  | nil => cases hmem
  | cons f t ih =>
    by_cases hf : f.key = k
    · simp only [bumpLink, hf, if_pos, beq_self_eq_true, if_true] at hmem
      rcases List.mem_cons.mp hmem with rfl | hmem'
      · exact ⟨f, List.mem_cons_self f t, by simp [hf], rfl, rfl⟩
      · exact ⟨e, List.mem_cons_of_mem _ hmem', rfl, rfl, rfl⟩
    · simp only [bumpLink, hf, beq_iff_eq, if_false, if_neg] at hmem
      rcases List.mem_cons.mp hmem with rfl | hmem'
      · exact ⟨e, List.mem_cons_self e t, rfl, rfl, rfl⟩
      · rcases ih hmem' with ⟨e', he', hk, hs, ht⟩
        exact ⟨e', List.mem_cons_of_mem _ he', hk, hs, ht⟩

theorem updateLinks_mem (m : List LinkEntry) (d : Deal) (e : LinkEntry)
    (hmem : e ∈ updateLinks m d) :
    (∃ e' ∈ m, e.key = e'.key ∧ e.source = e'.source ∧ e.target = e'.target) ∨
    (e.key = dealKey d ∧ e.source = d.data_aggregator ∧
      e.target = d.data_receiver) := by
  rw [updateLinks] at hmem
  by_cases hm : mapHasKey m (dealKey d)
  · rw [if_pos hm] at hmem
    exact Or.inl (bumpLink_mem m (dealKey d) e hmem)
  · rw [if_neg hm] at hmem
    rcases bumpLink_mem _ _ _ hmem with ⟨e', he', hk, hs, ht⟩
    rcases List.mem_append.mp he' with hin | hnew
    · exact Or.inl ⟨e', hin, hk, hs, ht⟩
    · rcases List.mem_singleton.mp hnew with rfl
      exact Or.inr ⟨hk, hs, ht⟩

theorem linkMap_mem_provenance (deals : List Deal) (e : LinkEntry)
    (hmem : e ∈ linkMap deals) :
    ∃ d ∈ deals, e.key = dealKey d ∧ e.source = d.data_aggregator ∧
      e.target = d.data_receiver := by
  rw [linkMap] at hmem
  have : ∀ (ds : List Deal) (m : List LinkEntry),
      e ∈ ds.foldl updateLinks m →
      (∃ e' ∈ m, e.key = e'.key ∧ e.source = e'.source ∧ e.target = e'.target) ∨
      ∃ d ∈ ds, e.key = dealKey d ∧ e.source = d.data_aggregator ∧
        e.target = d.data_receiver := by
    intro ds
    induction ds with
    | nil => intro m h; exact Or.inl ⟨e, h, rfl, rfl, rfl⟩
    | cons d t ih =>
      intro m h
      rw [List.foldl_cons] at h
      rcases ih _ h with ⟨e', he', hk, hs, ht⟩ | ⟨d', hd', hk, hs, ht⟩
      · rcases updateLinks_mem m d e' he' with ⟨e'', he'', hk', hs', ht'⟩ | ⟨hk', hs', ht'⟩
        · exact Or.inl ⟨e'', he'', hk.trans hk', hs.trans hs', ht.trans ht'⟩
        · exact Or.inr ⟨d, List.mem_cons_self d t,
            hk.trans hk', hs.trans hs', ht.trans ht'⟩
      · exact Or.inr ⟨d', List.mem_cons_of_mem _ hd', hk, hs, ht⟩
  rcases this deals [] hmem with ⟨e', he', _⟩ | hd
  · cases he'
  · exact hd

theorem nodes_ids (deals : List Deal) :
    (nodes deals).map GNode.id = (nodesMap deals).map NodeEntry.name := by
  rw [nodes, List.map_map]
  have h1 : (GNode.id ∘ fun p : ℕ × NodeEntry => (⟨p.2.name, p.2.count, p.1⟩ : GNode)) =
      NodeEntry.name ∘ Prod.snd := rfl
  rw [h1, ← List.map_map, List.enum_map_snd]

theorem exists_gnode_of_name (deals : List Deal) (k : String)
    (h : k ∈ (nodesMap deals).map NodeEntry.name) :
    ∃ n ∈ nodes deals, n.id = k := by
  have hm : k ∈ (nodes deals).map GNode.id := by rw [nodes_ids]; exact h
  rcases List.mem_map.mp hm with ⟨n, hn, hk⟩
  exact ⟨n, hn, hk⟩

theorem links_length (ns : List GNode) (es : List LinkEntry) :
    (links ns es).length = es.length := by
  rw [links, List.filter_true, List.length_map]

theorem linkMap_endpoints_resolve (deals : List Deal) (e : LinkEntry)
    (hmem : e ∈ linkMap deals) :
    (∃ n ∈ nodes deals, n.id = e.source) ∧ ∃ n ∈ nodes deals, n.id = e.target := by
  rcases linkMap_mem_provenance deals e hmem with ⟨d, hd, _, hs, ht⟩
  constructor
  · apply exists_gnode_of_name
    rw [mem_names_iff_isSome, nodesMap_count_spec]
    rw [if_pos ⟨d, hd, Or.inr hs.symm⟩]
    rfl
  · apply exists_gnode_of_name
    rw [mem_names_iff_isSome, nodesMap_count_spec]
    rw [if_pos ⟨d, hd, Or.inl ht.symm⟩]
    rfl

theorem applyUpdate_invariant (u : SliderUpdate) (f : Filters)
    (hy : f.yearMin ≤ f.yearMax) (hv : f.valueMin ≤ f.valueMax) :
    (applyUpdate u f).yearMin ≤ (applyUpdate u f).yearMax ∧
    (applyUpdate u f).valueMin ≤ (applyUpdate u f).valueMax := by
  cases u <;>
    simp [applyUpdate, yearSliderSetMin, yearSliderSetMax, valueSliderSetMin,
      valueSliderSetMax, valueInputSetMin, valueInputSetMax, hy, hv,
      min_le_right, le_max_right, le_max_iff, min_le_iff]

theorem applyUpdates_invariant (us : List SliderUpdate) (f : Filters)
    (hy : f.yearMin ≤ f.yearMax) (hv : f.valueMin ≤ f.valueMax) :
    (applyUpdates us f).yearMin ≤ (applyUpdates us f).yearMax ∧
    (applyUpdates us f).valueMin ≤ (applyUpdates us f).valueMax := by
  induction us generalizing f with
  | nil => exact ⟨hy, hv⟩
  | cons u t ih =>
    rw [applyUpdates, List.foldl_cons]
    rcases applyUpdate_invariant u f hy hv with ⟨hy', hv'⟩
    exact ih (applyUpdate u f) hy' hv'

/-- C1: the spec's value sub-predicate formula (dealMax defaulting to
dealMin when `value_max` is null) does not match the code: the code
computes `dealMax = (value_max || dealMin) / 1000000`, dividing the
already-converted `dealMin` by 1,000,000 a second time.  On the
open-ended deal `value_min = 20,000,000, value_max = null` with the
filter window `[0, 10]` million, the code passes the deal (its bogus
`dealMax` is `0.00002`) while the claim's formula rejects it. -/
theorem C1_value_predicate_divergence :
    valuePred c1Filters c1Deal = true ∧ valuePredSpec c1Filters c1Deal = false := by
  constructor
  · norm_num [valuePred, c1Filters, c1Deal, jsNumOr]
  · norm_num [valuePredSpec, c1Filters, c1Deal, jsNumOr]

/-- C2: the filter engine returns exactly the deals satisfying the
conjunction of the six sub-predicates (node-selection, year, value,
type, codes, search), and the result is a sublist of the input in the
same relative order. -/
theorem C2_filter_pipeline :
    ∀ (deals : List Deal) (sel : List String) (f : Filters) (q : String),
      applyFilters deals sel f q = deals.filter (dealPasses sel f q) ∧
      List.Sublist (applyFilters deals sel f q) deals :=
  fun deals sel f q =>
    ⟨applyFilters_eq_filter deals sel f q, applyFilters_sublist deals sel f q⟩

/-- C3: the snap function maps negative input to the sentinel `-1`,
maps input strictly between `0` and `37.5` to `75`, and on every
non-negative input returns a step of minimal distance, ties resolving
to the lower step; in particular `snap 112.5 = 75`, `snap (-5) = -1`
and `snap 10 = 75`. -/
theorem C3_snap_contract :
    (∀ v : ℚ, v < 0 → snapToValueStep v = -1) ∧
    (∀ v : ℚ, 0 < v → v < 75 / 2 → snapToValueStep v = 75) ∧
    (∀ v : ℚ, 0 ≤ v →
      snapToValueStep v ∈ ([75, 150, 225, 300] : List ℚ) ∧
      ∀ s ∈ ([75, 150, 225, 300] : List ℚ),
        |v - snapToValueStep v| ≤ |v - s| ∧
        (|v - snapToValueStep v| = |v - s| → snapToValueStep v ≤ s)) ∧
    snapToValueStep (225 / 2) = 75 ∧
    snapToValueStep (-5) = -1 ∧
    snapToValueStep 10 = 75 := by
  refine ⟨snapToValueStep_neg, ?_, snapToValueStep_nearest, ?_, ?_, ?_⟩
  · intro v h1 h2
    exact snapToValueStep_eq_75 v (le_of_lt h1) (by linarith)
  · exact snapToValueStep_eq_75 _ (by norm_num) (by norm_num)
  · exact snapToValueStep_neg _ (by norm_num)
  · exact snapToValueStep_eq_75 _ (by norm_num) (by norm_num)

/-- Witness for C3 at the concrete inputs `-7`, `20` and `100`. -/
theorem C3_snap_contract_witness :
    snapToValueStep (-7) = -1 ∧ snapToValueStep 20 = 75 ∧
    snapToValueStep 100 ∈ ([75, 150, 225, 300] : List ℚ) :=
  ⟨C3_snap_contract.1 (-7) (by norm_num),
   C3_snap_contract.2.1 20 (by norm_num) (by norm_num),
   (C3_snap_contract.2.2.1 100 (by norm_num)).1⟩

/-- C4: an empty `types` filter set passes every deal through the type
sub-predicate, and an empty `codes` filter set passes every deal
through the codes sub-predicate. -/
theorem C4_empty_means_all :
    ∀ (f : Filters) (d : Deal),
      (f.types = [] → typePred f d = true) ∧
      (f.codes = [] → codesPred f d = true) := by
  intro f d
  constructor <;> intro h <;> simp [typePred, codesPred, h]

/-- Witness for C4 on a concrete filter state with empty sets. -/
theorem C4_empty_means_all_witness :
    typePred c1Filters c1Deal = true ∧ codesPred c1Filters c1Deal = true :=
  ⟨(C4_empty_means_all c1Filters c1Deal).1 rfl,
   (C4_empty_means_all c1Filters c1Deal).2 rfl⟩

/-- C5 counterexample: the link map keys on the string
`aggregator ++ "->" ++ receiver`, so the two distinct pairs
`("A->B", "C")` and `("A", "B->C")` share the key `"A->B->C"` and
collapse into a single edge of count 2, contradicting "two distinct
pairs never collapse into one edge". -/
theorem C5_pair_collision_counterexample :
    linkMap [mkDeal 1 "C" "A->B", mkDeal 2 "B->C" "A"] =
      [⟨"A->B->C", "A->B", "C", 2⟩] ∧
    ((mkDeal 1 "C" "A->B").data_aggregator, (mkDeal 1 "C" "A->B").data_receiver) ≠
      ((mkDeal 2 "B->C" "A").data_aggregator, (mkDeal 2 "B->C" "A").data_receiver) := by
  decide

/-- C5 (amended): edge construction produces exactly one edge per
distinct key string `aggregator ++ "->" ++ receiver` — keys are
pairwise distinct, a key appears iff some deal has it, each edge's
count is the number of deals sharing its key, and each edge carries the
aggregator (as source) and receiver (as target) of a deal with that
key.  Distinct (aggregator, receiver) pairs collapse only when their
key strings coincide (possible when names contain `"->"`); three deals
with aggregator "A" and receiver "B" yield the single edge
`A->B` with count 3. -/
theorem C5_edges_per_key (deals : List Deal) :
    ((linkMap deals).map LinkEntry.key).Nodup ∧
    (∀ k : String, (∃ e ∈ linkMap deals, e.key = k) ↔ ∃ d ∈ deals, dealKey d = k) ∧
    (∀ e ∈ linkMap deals, e.count = deals.countP (fun d => dealKey d == e.key)) ∧
    (∀ e ∈ linkMap deals, ∃ d ∈ deals, e.key = dealKey d ∧
      e.source = d.data_aggregator ∧ e.target = d.data_receiver) ∧
    linkMap [mkDeal 1 "B" "A", mkDeal 2 "B" "A", mkDeal 3 "B" "A"] =
      [⟨"A->B", "A", "B", 3⟩] := by
  refine ⟨linkMap_nodup deals, ?_, ?_, linkMap_mem_provenance deals, by decide⟩
  · intro k
    have hmem : (∃ e ∈ linkMap deals, e.key = k) ↔
        k ∈ (linkMap deals).map LinkEntry.key := by
      simp [List.mem_map]
    rw [hmem, mem_keys_iff_isSome, linkMap_count_spec]
    by_cases h : ∃ d ∈ deals, dealKey d = k <;> simp [h]
  · intro e he
    have h1 := linkCount_of_mem_nodup _ e (linkMap_nodup deals) he
    rw [linkMap_count_spec] at h1
    by_cases h : ∃ d ∈ deals, dealKey d = e.key
    · rw [if_pos h] at h1
      exact (Option.some.injEq _ _ ▸ h1 : _ = _).symm ▸ rfl
    · rw [if_neg h] at h1
      cases h1

/-- Witness for C5 on the singleton deal list. -/
theorem C5_edges_per_key_witness :
    ∃ e ∈ linkMap [mkDeal 1 "B" "A"], e.key = "A->B" :=
  ((C5_edges_per_key [mkDeal 1 "B" "A"]).2.1 "A->B").mpr
    ⟨mkDeal 1 "B" "A", List.mem_singleton_self _, by decide⟩

/-- C6 counterexample: a self-deal (receiver = aggregator = "A")
produces the single node "A" with count 2, although "A" participates in
only one deal — one deal can contribute 2 to a node's count,
contradicting "a deal contributes at most 1 to any one node's count". -/
theorem C6_self_deal_counterexample :
    nodesMap [mkDeal 1 "A" "A"] = [⟨"A", 2⟩] ∧
    ([mkDeal 1 "A" "A"].filter
      (fun d => d.data_receiver == "A" || d.data_aggregator == "A")).length = 1 := by
  decide

/-- C6 (amended): node construction produces exactly one node per
distinct organization name appearing as receiver or aggregator, and
each node's count is the number of (deal, role) participations: the
number of deals in which the organization is the receiver plus the
number in which it is the aggregator.  A deal with distinct receiver
and aggregator contributes 1 to each of two nodes; a self-deal
contributes 2 to its single node. -/
theorem C6_node_count_spec (deals : List Deal) :
    ((nodesMap deals).map NodeEntry.name).Nodup ∧
    (∀ k : String, (∃ e ∈ nodesMap deals, e.name = k) ↔
      ∃ d ∈ deals, d.data_receiver = k ∨ d.data_aggregator = k) ∧
    ∀ e ∈ nodesMap deals, e.count = roleCount deals e.name := by
  refine ⟨nodesMap_nodup deals, ?_, ?_⟩
  · intro k
    have hmem : (∃ e ∈ nodesMap deals, e.name = k) ↔
        k ∈ (nodesMap deals).map NodeEntry.name := by
      simp [List.mem_map]
    rw [hmem, mem_names_iff_isSome, nodesMap_count_spec]
    by_cases h : ∃ d ∈ deals, d.data_receiver = k ∨ d.data_aggregator = k <;> simp [h]
  · intro e he
    have h1 := entryCount_of_mem_nodup _ e (nodesMap_nodup deals) he
    rw [nodesMap_count_spec] at h1
    by_cases h : ∃ d ∈ deals, d.data_receiver = e.name ∨ d.data_aggregator = e.name
    · rw [if_pos h] at h1
      exact (Option.some.injEq _ _ ▸ h1 : _ = _).symm ▸ rfl
    · rw [if_neg h] at h1
      cases h1

/-- Witness for C6 on the singleton deal list. -/
theorem C6_node_count_spec_witness :
    ∃ e ∈ nodesMap [mkDeal 1 "B" "A"], e.name = "A" :=
  ((C6_node_count_spec [mkDeal 1 "B" "A"]).2.1 "A").mpr
    ⟨mkDeal 1 "B" "A", List.mem_singleton_self _, Or.inr rfl⟩

/-- C7 counterexample: an edge whose source name ("X") resolves to no
node is NOT dropped — the `|| 0` defaulting runs before the
`!== undefined` filter, so the edge is kept and attached to node index
0.  Here the node list is `[⟨"B", 1, 0⟩]` and the edge set contains
a single entry with unresolvable source "X": the result still has one
edge, pointing from index 0 to index 0. -/
theorem C7_unresolved_kept_counterexample :
    links [⟨"B", 1, 0⟩] [⟨"X->B", "X", "B", 1⟩] = [⟨0, 0, 1⟩] ∧
    ∀ n ∈ [(⟨"B", 1, 0⟩ : GNode)], n.id ≠ "X" := by
  decide

/-- C7 (amended): edge construction is total and never drops an entry —
the resolved edge list always has exactly as many edges as the link
map, for arbitrary node lists as well; an unresolvable endpoint is
defaulted to index 0 rather than dropped (see the counterexample).  For
inputs built from a deal list this defensive case is unreachable: every
edge's source and target resolve to a node. -/
theorem C7_edge_construction_total (deals : List Deal) :
    (graphLinks deals).length = (linkMap deals).length ∧
    (∀ (ns : List GNode) (es : List LinkEntry), (links ns es).length = es.length) ∧
    ∀ e ∈ linkMap deals,
      (∃ n ∈ nodes deals, n.id = e.source) ∧ ∃ n ∈ nodes deals, n.id = e.target :=
  ⟨links_length _ _, links_length, fun e he => linkMap_endpoints_resolve deals e he⟩

/-- Witness for C7 on the singleton deal list. -/
theorem C7_edge_construction_total_witness :
    ∃ n ∈ nodes [mkDeal 1 "B" "A"],
      n.id = (⟨"A->B", "A", "B", 1⟩ : LinkEntry).source :=
  ((C7_edge_construction_total [mkDeal 1 "B" "A"]).2.2
    ⟨"A->B", "A", "B", 1⟩ (by decide)).1

/-- C8 counterexample: `resetAll` sets the year bounds to the fixed
constants 2016/2025, not to the dataset's full range: on a stats
payload whose only year is 2020 the reset `yearMin` is 2016, while the
dataset's smallest year is 2020. -/
theorem C8_reset_year_counterexample :
    (resetAllFilters (some c8Stats) c8State).filters.yearMin = 2016 ∧
    datasetMinYear c8Stats = 2020 ∧
    (resetAllFilters (some c8Stats) c8State).filters.yearMin ≠
      datasetMinYear c8Stats := by
  refine ⟨rfl, rfl, ?_⟩
  decide

/-- C8 (amended): in every state, `resetAll` atomically restores the
fixed defaults — year bounds to the constants 2016 and 2025
(independent of the dataset), `valueMin = -1` (undisclosed included),
`valueMax` the stats value-range maximum clamped to 300 and snapped to
a step (300 when stats are absent), `types`, `codes` and the search
query empty — and empties the selection set; calling it twice in a row
yields the same state both times. -/
theorem C8_reset_defaults_idempotent :
    ∀ (stats : Option Stats) (s : AppState),
      resetAllFilters stats s = resetDefaults stats ∧
      resetAllFilters stats (resetAllFilters stats s) = resetAllFilters stats s :=
  fun _ _ => ⟨rfl, rfl⟩

/-- C9: starting from a filter state with ordered bounds, any sequence
of year-slider and value-slider updates keeps `yearMin ≤ yearMax` and
`valueMin ≤ valueMax`: each handler clamps the moved bound against the
opposite bound. -/
theorem C9_slider_clamp_invariant :
    ∀ (us : List SliderUpdate) (f : Filters),
      f.yearMin ≤ f.yearMax → f.valueMin ≤ f.valueMax →
      (applyUpdates us f).yearMin ≤ (applyUpdates us f).yearMax ∧
      (applyUpdates us f).valueMin ≤ (applyUpdates us f).valueMax :=
  fun us f hy hv => applyUpdates_invariant us f hy hv

/-- Witness for C9: a concrete update sequence that tries to drag
`yearMin` above `yearMax` and `valueMax` below `valueMin`. -/
theorem C9_slider_clamp_invariant_witness :
    (applyUpdates [SliderUpdate.yearLo 2030, SliderUpdate.valueHi (-3)]
      c1Filters).yearMin ≤
      (applyUpdates [SliderUpdate.yearLo 2030, SliderUpdate.valueHi (-3)]
        c1Filters).yearMax ∧
    (applyUpdates [SliderUpdate.yearLo 2030, SliderUpdate.valueHi (-3)]
      c1Filters).valueMin ≤
      (applyUpdates [SliderUpdate.yearLo 2030, SliderUpdate.valueHi (-3)]
        c1Filters).valueMax :=
  C9_slider_clamp_invariant [SliderUpdate.yearLo 2030, SliderUpdate.valueHi (-3)]
    c1Filters (by norm_num [c1Filters]) (by norm_num [c1Filters])

/-- C10: the snap function's range is exactly the sentinel `-1` plus
the four steps, and input `0` (not covered by the "strictly between"
rule) snaps to `75`; the `snapToStep` copy in the filter component is
definitionally the same function. -/
theorem C10_snap_range :
    (∀ v : ℚ, snapToValueStep v = -1 ∨ snapToValueStep v = 75 ∨
      snapToValueStep v = 150 ∨ snapToValueStep v = 225 ∨
      snapToValueStep v = 300) ∧
    snapToValueStep 0 = 75 ∧
    snapToStep = snapToValueStep := by
  refine ⟨?_, snapToValueStep_eq_75 0 le_rfl (by norm_num), snapToStep_eq⟩
  intro v
  rcases lt_or_le v 0 with h | h
  · exact Or.inl (snapToValueStep_neg v h)
  · rcases le_or_lt v (225 / 2) with h1 | h1
    · exact Or.inr (Or.inl (snapToValueStep_eq_75 v h h1))
    · rcases le_or_lt v (375 / 2) with h2 | h2
      · exact Or.inr (Or.inr (Or.inl (snapToValueStep_eq_150 v h1 h2)))
      · rcases le_or_lt v (525 / 2) with h3 | h3
        · exact Or.inr (Or.inr (Or.inr (Or.inl (snapToValueStep_eq_225 v h2 h3))))
        · exact Or.inr (Or.inr (Or.inr (Or.inr (snapToValueStep_eq_300 v h3))))
